import Mathlib

/-!
Verification of the AlumniHuddle multi-tenancy core (open-webui fork).

Shallow embedding of:
  - backend/open_webui/middleware/tenant.py        (slug extraction, TTL cache)
  - backend/open_webui/middleware/model_filter.py  (response filtering middleware)
  - backend/open_webui/services/huddle_models.py   (derived model identifier)
  - backend/open_webui/models/mentors.py           (mentor table queries)
  - backend/open_webui/services/mentor_rag.py      (indexing / vector search)
  - backend/open_webui/routers/mentors.py          (single-mentor endpoint)

Python strings are modelled as Lean `String`; the Python string operations
used by the source (split, endswith, rstrip, lower, substring membership)
are re-implemented structurally over the underlying character list so that
all definitions evaluate inside the kernel.
-/

/-! ### Character-list string operations mirroring the Python builtins -/

/-- Python `s.lower()`. -/
def lowerStr (s : String) : String := String.mk (s.data.map Char.toLower)

/-- Helper for `splitChar`: accumulates the current field. -/
def splitCharAux (c : Char) : List Char → List Char → List (List Char)
  | [], acc => [acc.reverse]
  | x :: xs, acc =>
    if x = c then acc.reverse :: splitCharAux c xs []
    else splitCharAux c xs (x :: acc)

/-- Python `s.split(c)` for a one-character separator. -/
def splitChar (c : Char) (s : String) : List String :=
  (splitCharAux c s.data []).map String.mk

/-- Python `s.endswith(suffix)`. -/
def endsStr (s suf : String) : Bool := List.isSuffixOf suf.data s.data

/-- Python `s.rstrip(".")`. -/
def rstripDot (s : String) : String :=
  String.mk ((s.data.reverse.dropWhile (· == '.')).reverse)

/-- Python `s[:-n]` for `0 ≤ n ≤ len s` (drop the last `n` characters). -/
def dropRightStr (s : String) (n : Nat) : String :=
  String.mk (s.data.take (s.data.length - n))

/-- Python `sub in s` (substring membership), via character-list infixes. -/
def containsSub (s sub : String) : Bool :=
  decide (sub.data <:+: s.data)

/-! ### middleware/tenant.py — slug extraction -/

/-- Default of the `BASE_DOMAIN` environment variable in `middleware/tenant.py`. -/
def BASE_DOMAIN : String := "alumnihuddle.com"

/-- Subdomains that are never treated as huddle slugs (`RESERVED_SUBDOMAINS`). -/
def RESERVED_SUBDOMAINS : List String := ["www", "api", "admin", "app", "localhost"]

/-- Loop `for part in parts: if part.lower() not in RESERVED_SUBDOMAINS: return part.lower()`
from `extract_subdomain`. -/
def firstUnreservedPart : List String → Option String
  | [] => none
  | p :: ps =>
    if lowerStr p ∈ RESERVED_SUBDOMAINS then firstUnreservedPart ps
    else some (lowerStr p)

/-- Model of `extract_subdomain` from `middleware/tenant.py` under the default base domain. -/
def extract_subdomain (host : String) : Option String :=
  if host = "" then none
  else
    let host := (splitChar ':' host).headD ""
    if host = "localhost" ∨ host = "127.0.0.1" then none
    else if ¬ endsStr host BASE_DOMAIN then none
    else
      let subdomain_part := rstripDot (dropRightStr host BASE_DOMAIN.data.length)
      if subdomain_part = "" then none
      else
        let parts := splitChar '.' subdomain_part
        if parts.length = 1 then
          if lowerStr (parts.headD "") ∈ RESERVED_SUBDOMAINS then none
          else some (lowerStr (parts.headD ""))
        else
          firstUnreservedPart parts

/-- Claim C6: slug extraction from the Host header, under the default base
domain `alumnihuddle.com`, maps `hoosiers-football.alumnihuddle.com` to
`hoosiers-football`, and yields no slug for `www.alumnihuddle.com`,
`alumnihuddle.com`, and `localhost:3000`. -/
theorem C6_extract_subdomain_cases :
    extract_subdomain "hoosiers-football.alumnihuddle.com" = some "hoosiers-football" ∧
    extract_subdomain "www.alumnihuddle.com" = none ∧
    extract_subdomain "alumnihuddle.com" = none ∧
    extract_subdomain "localhost:3000" = none := by
  refine ⟨?_, ?_, ?_, ?_⟩ <;> decide

/-! ### models/tenants.py — the Huddle (organization) pydantic model -/

/-- Model of `HuddleModel` from `models/tenants.py` (the fields the core reads). -/
structure HuddleModel where
  id : String
  name : String
  slug : String
  logo_url : Option String
  cover_photo_url : Option String
  primary_color : Option String
  secondary_color : Option String
  require_approval : Bool
  admin_email : Option String
  description : Option String
deriving DecidableEq, Repr

/-! ### middleware/tenant.py — the TTL resolution cache -/

/-- Model of `CACHE_TTL_SECONDS = 300` from `middleware/tenant.py`. -/
def CACHE_TTL_SECONDS : Int := 300

/-- The `_huddle_cache` dict: slug maps to (organization-or-absence, timestamp). -/
abbrev HuddleCache := List (String × (Option HuddleModel × Int))

/-- Python dict overwrite `_huddle_cache[slug] = (huddle, now)`. -/
def cacheInsert (c : HuddleCache) (slug : String) (v : Option HuddleModel × Int) :
    HuddleCache :=
  (slug, v) :: c.filter (fun kv => kv.1 ≠ slug)

/-- Model of `get_cached_huddle` from `middleware/tenant.py`.  The Directory call
`Huddles.get_huddle_by_slug` is the injected `db`; `now` is `time.time()`.
Returns the resolved value, the cache after the call, and whether the
Directory was consulted. -/
def get_cached_huddle {ε : Type} (db : String → Except ε (Option HuddleModel))
    (cache : HuddleCache) (slug : String) (now : Int) :
    Except ε (Option HuddleModel × HuddleCache × Bool) :=
  match List.lookup slug cache with
  | some (huddle, cached_at) =>
    if now - cached_at < CACHE_TTL_SECONDS then
      Except.ok (huddle, cache, false)
    else
      match db slug with
      | Except.ok h => Except.ok (h, cacheInsert cache slug (h, now), true)
      | Except.error e =>
        match List.lookup slug cache with
        | some (stale, _) => Except.ok (stale, cache, true)
        | none => Except.error e
  | none =>
    match db slug with
    | Except.ok h => Except.ok (h, cacheInsert cache slug (h, now), true)
    | Except.error e =>
      match List.lookup slug cache with
      | some (stale, _) => Except.ok (stale, cache, true)
      | none => Except.error e

/-- Looking up a slug right after `cacheInsert` for that slug returns the
inserted pair. -/
theorem lookup_cacheInsert_self (c : HuddleCache) (s : String)
    (p : Option HuddleModel × Int) :
    List.lookup s (cacheInsert c s p) = some p := by
  simp [cacheInsert, List.lookup]

/-- After a successful resolution, any cache entry for the slug holds exactly
the value the resolution returned. -/
theorem get_cached_huddle_entry_value {ε : Type}
    (db : String → Except ε (Option HuddleModel)) (c : HuddleCache)
    (s : String) (t : Int) (v : Option HuddleModel) (c' : HuddleCache) (b : Bool)
    (h : get_cached_huddle db c s t = Except.ok (v, c', b)) :
    ∀ w tc, List.lookup s c' = some (w, tc) → w = v := by
  intro w tc hw
  unfold get_cached_huddle at h
  have leaf : ∀ x : Option HuddleModel × HuddleCache × Bool,
      Except.ok (ε := ε) x = Except.ok (v, c', b) → x.1 = v ∧ x.2.1 = c' := by
    intro x hx
    cases hx
    exact ⟨rfl, rfl⟩
  split at h
  next hud cached hlook =>
    split at h
    · obtain ⟨h1, h2⟩ := leaf _ h
      subst h1
      subst h2
      simp_all
    · split at h
      · obtain ⟨h1, h2⟩ := leaf _ h
        subst h1
        subst h2
        simp_all [lookup_cacheInsert_self]
      · split at h
        · obtain ⟨h1, h2⟩ := leaf _ h
          subst h1
          subst h2
          simp_all
        · exact absurd h (by simp)
  next hlook =>
    split at h
    · obtain ⟨h1, h2⟩ := leaf _ h
      subst h1
      subst h2
      simp_all [lookup_cacheInsert_self]
    · split at h
      · simp_all
      · exact absurd h (by simp)

/-- Claim C4: if a slug is resolved twice within the 300-second TTL window
(same Directory in both calls), the second resolution performs no Directory
call, leaves the cache untouched, and returns the identical
organization-or-absence value as the first — including when the cached
value is the negative (absent) result. -/
theorem C4_cache_hit_idempotence {ε : Type}
    (db : String → Except ε (Option HuddleModel)) (c : HuddleCache)
    (s : String) (t0 t1 : Int) (v : Option HuddleModel) (c' : HuddleCache) (b : Bool)
    (h0 : get_cached_huddle db c s t0 = Except.ok (v, c', b))
    (hfresh : ∃ w tc, List.lookup s c' = some (w, tc) ∧
        t1 - tc < CACHE_TTL_SECONDS) :
    get_cached_huddle db c' s t1 = Except.ok (v, c', false) := by
  obtain ⟨w, tc, hl, hf⟩ := hfresh
  have hwv := get_cached_huddle_entry_value db c s t0 v c' b h0 w tc hl
  subst hwv
  unfold get_cached_huddle
  rw [hl]
  simp [hf]

/-- Evaluation of C4: a cold miss at time 0 stores the negative result; the
re-resolution at time 10 is a pure cache hit with the same value. -/
def dirOkNone : String → Except Unit (Option HuddleModel) := fun _ => Except.ok none

theorem C4_witness :
    get_cached_huddle dirOkNone [("acme", (none, 0))] "acme" 10 =
      Except.ok (none, [("acme", (none, 0))], false) :=
  C4_cache_hit_idempotence dirOkNone [] "acme" 0 10 none
    [("acme", (none, 0))] true rfl ⟨none, 0, rfl, by decide⟩

/-- Claim C5: when the Directory lookup fails, a pre-existing cache entry for
the slug (fresh or expired) is served and the failure suppressed; with no
pre-existing entry the failure propagates to the caller. -/
theorem C5_failure_fallback {ε : Type}
    (db : String → Except ε (Option HuddleModel)) (c : HuddleCache)
    (s : String) (t : Int) (e : ε) (hdb : db s = Except.error e) :
    (∀ w tc, List.lookup s c = some (w, tc) →
        ∃ b, get_cached_huddle db c s t = Except.ok (w, c, b)) ∧
    (List.lookup s c = none → get_cached_huddle db c s t = Except.error e) := by
  constructor
  · intro w tc hl
    by_cases hf : t - tc < CACHE_TTL_SECONDS
    · exact ⟨false, by unfold get_cached_huddle; simp [hl, hf]⟩
    · exact ⟨true, by unfold get_cached_huddle; simp [hl, hf, hdb]⟩
  · intro hl
    unfold get_cached_huddle
    simp [hl, hdb]

/-- Evaluation of C5 via the theorem: a failing Directory with a stale entry
(timestamp far in the past) still serves the entry; with an empty cache the
failure surfaces. -/
def dirFail : String → Except Unit (Option HuddleModel) := fun _ => Except.error ()

theorem C5_witness :
    (∃ b, get_cached_huddle dirFail [("acme", (none, -1000))] "acme" 0 =
        Except.ok (none, [("acme", (none, -1000))], b)) ∧
    get_cached_huddle dirFail ([] : HuddleCache) "acme" 0 = Except.error () :=
  ⟨(C5_failure_fallback dirFail [("acme", (none, -1000))] "acme" 0 () rfl).1
      none (-1000) rfl,
   (C5_failure_fallback dirFail [] "acme" 0 () rfl).2 rfl⟩

/-! ### services/huddle_models.py — derived model identifier -/

/-- Model of `get_huddle_model_id` from `services/huddle_models.py`. -/
def get_huddle_model_id (huddle : HuddleModel) : String :=
  "alumnihuddle-" ++ huddle.slug

/-! ### middleware/model_filter.py — response filtering middleware

The middleware operates on an HTTP response produced by the downstream
handler.  Headers are a case-insensitive key/value list; the body is a byte
sequence (modelled as `List Nat`).  `gzip.decompress` and
`json.loads`/`json.dumps` are injected as abstract partial functions; a JSON
body is abstracted to whether it carries a top-level `"data"` list of model
entries, each entry exposing the result of `model.get("id")`. -/

/-- One element of the `data` list: `model.get("id")` plus the rest of the
object (opaque). -/
structure ModelEntry where
  id : Option String
  payload : String
deriving DecidableEq, Repr

/-- The parsed JSON document: `data` is `some entries` exactly when `"data" in
data and isinstance(data["data"], list)`; `rest` is the remainder of the
document, preserved untouched. -/
structure ModelsDoc where
  data : Option (List ModelEntry)
  rest : String
deriving DecidableEq, Repr

/-- The upstream response as the middleware sees it: status, headers, the
bytes accumulated by the buffering loop, and whether that loop completed
without raising. -/
structure UpstreamResponse where
  status : Nat
  headers : List (String × String)
  bufferedBytes : List Nat
  bufferOk : Bool
deriving DecidableEq, Repr

/-- Starlette's case-insensitive `response.headers.get(k)` (for lowercase `k`). -/
def headerGet (hs : List (String × String)) (k : String) : Option String :=
  (hs.find? (fun kv => lowerStr kv.1 == k)).map (fun kv => kv.2)

/-- The header dict rebuilt without `content-length` and `content-encoding`
(lines 106-109 and 121-124 of `model_filter.py`). -/
def stripEntityHeaders (hs : List (String × String)) : List (String × String) :=
  hs.filter (fun kv => decide (lowerStr kv.1 ∉ ["content-length", "content-encoding"]))

/-- What `dispatch` hands back to the client:
  * `untouched` — the original response object, body iterator intact
    (non-intercepted path, no tenant, or non-JSON content type);
  * `consumedOriginal` — the original response object returned after the body
    iterator was already drained (the `return response` inside the gzip
    `except` branch), with its headers unmodified;
  * `fallback` — the outer `except` branch: a fresh `Response` carrying the
    given bytes with entity headers stripped;
  * `filtered` — the happy path: a fresh `Response` re-encoding the filtered
    document with entity headers stripped. -/
inductive DispatchResult where
  | untouched : DispatchResult
  | consumedOriginal : List (String × String) → Nat → DispatchResult
  | fallback : List Nat → List (String × String) → Nat → DispatchResult
  | filtered : ModelsDoc → List (String × String) → Nat → DispatchResult
deriving DecidableEq, Repr

/-- Model of `HuddleModelFilterMiddleware.dispatch` from `middleware/model_filter.py`.
`gunzip` models `gzip.decompress` (`none` = raises), `parseJson` models
`body.decode("utf-8")` + `json.loads` (`none` = raises). -/
def dispatch (path : String) (huddle : Option HuddleModel)
    (resp : UpstreamResponse)
    (gunzip : List Nat → Option (List Nat))
    (parseJson : List Nat → Option ModelsDoc) : DispatchResult :=
  if path ∉ ["/api/models", "/api/v1/models"] then DispatchResult.untouched
  else
    match huddle with
    | none => DispatchResult.untouched
    | some h =>
      if ¬ containsSub ((headerGet resp.headers "content-type").getD "")
          "application/json" then
        DispatchResult.untouched
      else if ¬ resp.bufferOk then
        -- the buffering loop raised: jump to the outer except with the
        -- bytes accumulated so far
        DispatchResult.fallback resp.bufferedBytes
          (stripEntityHeaders resp.headers) resp.status
      else if (headerGet resp.headers "content-encoding").getD "" = "gzip" then
        match gunzip resp.bufferedBytes with
        | none =>
          -- the inner except executes a bare return of the original
          -- response object: headers unmodified, body iterator already
          -- consumed by the buffering loop
          DispatchResult.consumedOriginal resp.headers resp.status
        | some decompressed => dispatchParse h decompressed resp parseJson
      else dispatchParse h resp.bufferedBytes resp parseJson
where
  /-- Parse, filter, re-encode (lines 81-129); `body` holds the bytes after
  any decompression, which is also what the outer except re-emits. -/
  dispatchParse (h : HuddleModel) (body : List Nat) (resp : UpstreamResponse)
      (parseJson : List Nat → Option ModelsDoc) : DispatchResult :=
    match parseJson body with
    | none =>
      DispatchResult.fallback body (stripEntityHeaders resp.headers) resp.status
    | some data =>
      match data.data with
      | some entries =>
        DispatchResult.filtered
          { data with
            data := some (entries.filter
              (fun m => m.id == some (get_huddle_model_id h))) }
          (stripEntityHeaders resp.headers) resp.status
      | none =>
        DispatchResult.filtered data (stripEntityHeaders resp.headers) resp.status

/-- Claim C1: on an intercepted model-listing response whose `data` list holds
entries with identifiers `alumnihuddle-x`, `claude-raw`, `alumnihuddle-y`, a
request bound to the organization with slug `x` yields exactly the
`alumnihuddle-x` entry; and with no bound organization every response passes
through unchanged. -/
theorem C1_filter_listing (path : String) (h : HuddleModel)
    (resp : UpstreamResponse)
    (gunzip : List Nat → Option (List Nat))
    (parseJson : List Nat → Option ModelsDoc)
    (p1 p2 p3 rest : String) (body2 : List Nat)
    (hpath : path ∈ ["/api/models", "/api/v1/models"])
    (hslug : h.slug = "x")
    (hct : containsSub ((headerGet resp.headers "content-type").getD "")
      "application/json" = true)
    (hbuf : resp.bufferOk = true)
    (hdec : (if (headerGet resp.headers "content-encoding").getD "" = "gzip"
        then gunzip resp.bufferedBytes else some resp.bufferedBytes) = some body2)
    (hparse : parseJson body2 = some
      ⟨some [⟨some "alumnihuddle-x", p1⟩, ⟨some "claude-raw", p2⟩,
             ⟨some "alumnihuddle-y", p3⟩], rest⟩) :
    dispatch path (some h) resp gunzip parseJson =
      DispatchResult.filtered ⟨some [⟨some "alumnihuddle-x", p1⟩], rest⟩
        (stripEntityHeaders resp.headers) resp.status ∧
    (∀ path2 resp2, dispatch path2 none resp2 gunzip parseJson =
      DispatchResult.untouched) := by
  have hmid : get_huddle_model_id h = "alumnihuddle-x" := by
    unfold get_huddle_model_id
    rw [hslug]
    rfl
  have hparsed : ∀ b, parseJson b = some
      ⟨some [⟨some "alumnihuddle-x", p1⟩, ⟨some "claude-raw", p2⟩,
             ⟨some "alumnihuddle-y", p3⟩], rest⟩ →
      dispatch.dispatchParse h b resp parseJson =
      DispatchResult.filtered ⟨some [⟨some "alumnihuddle-x", p1⟩], rest⟩
        (stripEntityHeaders resp.headers) resp.status := by
    intro b hb
    unfold dispatch.dispatchParse
    rw [hb, hmid]
    rfl
  constructor
  · by_cases henc : (headerGet resp.headers "content-encoding").getD "" = "gzip"
    · rw [if_pos henc] at hdec
      unfold dispatch
      simp only [hpath, hct, hbuf, henc, hdec]
      exact hparsed _ hparse
    · rw [if_neg henc] at hdec
      obtain rfl : resp.bufferedBytes = body2 := Option.some.injEq _ _ ▸ hdec
      unfold dispatch
      simp only [hpath, hct, hbuf, henc]
      exact hparsed _ hparse
  · intro path2 resp2
    unfold dispatch
    by_cases hp : path2 ∈ ["/api/models", "/api/v1/models"]
    · rw [if_neg (not_not_intro hp)]
    · rw [if_pos hp]

/-- A concrete organization with slug `x`, used to evaluate the middleware. -/
def hX : HuddleModel :=
  ⟨"hud-1", "X Team", "x", none, none, none, none, false, none, none⟩

/-- A plain (non-gzipped) JSON model-listing response. -/
def respPlainC1 : UpstreamResponse :=
  ⟨200, [("Content-Type", "application/json"), ("Content-Length", "64")], [123], true⟩

/-- Parser producing the three-entry listing of claim C1. -/
def pjC1 : List Nat → Option ModelsDoc := fun _ =>
  some ⟨some [⟨some "alumnihuddle-x", "a"⟩, ⟨some "claude-raw", "b"⟩,
              ⟨some "alumnihuddle-y", "c"⟩], "r"⟩

/-- A `gzip.decompress` that always raises. -/
def gzNone : List Nat → Option (List Nat) := fun _ => none

theorem C1_witness :
    dispatch "/api/models" (some hX) respPlainC1 gzNone pjC1 =
      DispatchResult.filtered ⟨some [⟨some "alumnihuddle-x", "a"⟩], "r"⟩
        (stripEntityHeaders respPlainC1.headers) 200 ∧
    dispatch "/api/models" none respPlainC1 gzNone pjC1 =
      DispatchResult.untouched :=
  ⟨(C1_filter_listing "/api/models" hX respPlainC1 gzNone pjC1 "a" "b" "c" "r" [123]
      (by decide) rfl (by decide) rfl (by decide) rfl).1,
   (C1_filter_listing "/api/models" hX respPlainC1 gzNone pjC1 "a" "b" "c" "r" [123]
      (by decide) rfl (by decide) rfl (by decide) rfl).2 "/api/models" respPlainC1⟩

/-- An entry carrying the slug-`x` model identifier. -/
def eDup : ModelEntry := ⟨some "alumnihuddle-x", ""⟩

/-- Parser producing a listing with two entries sharing one identifier. -/
def pjDup : List Nat → Option ModelsDoc := fun _ => some ⟨some [eDup, eDup], ""⟩

/-- A plain JSON response used for the duplicate-identifier listing. -/
def respDup : UpstreamResponse :=
  ⟨200, [("content-type", "application/json")], [123], true⟩

/-- Claim C2, counterexample: on an upstream listing whose `data` list holds
two entries that both carry the identifier `alumnihuddle-x`, the middleware
bound to slug `x` emits a listing with two entries, not at most one. -/
theorem C2_counterexample :
    dispatch "/api/models" (some hX) respDup gzNone pjDup =
      DispatchResult.filtered ⟨some [eDup, eDup], ""⟩
        [("content-type", "application/json")] 200 ∧
    ¬ ([eDup, eDup].length ≤ 1) := by
  exact ⟨by decide, by decide⟩

/-- If the mapped values of a list are pairwise distinct and the predicate
forces one fixed mapped value, the filter keeps at most one element. -/
theorem length_filter_le_one_of_nodup {α β : Type} (p : α → Bool) (f : α → β)
    (c : β) (l : List α) (h : (l.map f).Nodup)
    (hp : ∀ x, p x = true → f x = c) :
    (l.filter p).length ≤ 1 := by
  induction l with
  | nil => simp
  | cons a t ih =>
    rw [List.map_cons, List.nodup_cons] at h
    by_cases hpa : p a = true
    · rw [List.filter_cons_of_pos hpa]
      have ht : t.filter p = [] := by
        rw [List.filter_eq_nil_iff]
        intro x hx hpx
        exact h.1 (by rw [hp a hpa, ← hp x hpx]; exact List.mem_map_of_mem f hx)
      simp [ht]
    · rw [List.filter_cons_of_neg hpa]
      exact ih h.2

/-- Claim C2 as amended: provided the upstream `data` entries carry pairwise
distinct identifiers, the filtered listing emitted for a bound organization
contains at most one entry.  (With duplicated identifiers the middleware
retains every matching entry — see the counterexample.) -/
theorem C2_amended_at_most_one (path : String) (h : HuddleModel)
    (resp : UpstreamResponse)
    (gunzip : List Nat → Option (List Nat))
    (parseJson : List Nat → Option ModelsDoc)
    (entries : List ModelEntry) (rest : String) (body2 : List Nat)
    (hpath : path ∈ ["/api/models", "/api/v1/models"])
    (hct : containsSub ((headerGet resp.headers "content-type").getD "")
      "application/json" = true)
    (hbuf : resp.bufferOk = true)
    (hdec : (if (headerGet resp.headers "content-encoding").getD "" = "gzip"
        then gunzip resp.bufferedBytes else some resp.bufferedBytes) = some body2)
    (hparse : parseJson body2 = some ⟨some entries, rest⟩)
    (hnodup : (entries.map ModelEntry.id).Nodup) :
    dispatch path (some h) resp gunzip parseJson =
      DispatchResult.filtered
        ⟨some (entries.filter (fun m => m.id == some (get_huddle_model_id h))),
         rest⟩ (stripEntityHeaders resp.headers) resp.status ∧
    (entries.filter (fun m => m.id == some (get_huddle_model_id h))).length ≤ 1 := by
  refine ⟨?_, length_filter_le_one_of_nodup _ ModelEntry.id
    (some (get_huddle_model_id h)) entries hnodup (fun x hx => eq_of_beq hx)⟩
  have hparsed : dispatch.dispatchParse h body2 resp parseJson =
      DispatchResult.filtered
        ⟨some (entries.filter (fun m => m.id == some (get_huddle_model_id h))),
         rest⟩ (stripEntityHeaders resp.headers) resp.status := by
    unfold dispatch.dispatchParse
    rw [hparse]
  by_cases henc : (headerGet resp.headers "content-encoding").getD "" = "gzip"
  · rw [if_pos henc] at hdec
    unfold dispatch
    simp only [hpath, hct, hbuf, henc, hdec]
    exact hparsed
  · rw [if_neg henc] at hdec
    obtain rfl : resp.bufferedBytes = body2 := Option.some.injEq _ _ ▸ hdec
    unfold dispatch
    simp only [hpath, hct, hbuf, henc]
    exact hparsed

/-- The three-entry listing of `pjC1`, as a list of model entries. -/
def entriesC1 : List ModelEntry :=
  [⟨some "alumnihuddle-x", "a"⟩, ⟨some "claude-raw", "b"⟩,
   ⟨some "alumnihuddle-y", "c"⟩]

theorem C2_witness :
    dispatch "/api/models" (some hX) respPlainC1 gzNone pjC1 =
      DispatchResult.filtered
        ⟨some (entriesC1.filter
          (fun m => m.id == some (get_huddle_model_id hX))), "r"⟩
        (stripEntityHeaders respPlainC1.headers) 200 ∧
    (entriesC1.filter
        (fun m => m.id == some (get_huddle_model_id hX))).length ≤ 1 :=
  C2_amended_at_most_one "/api/models" hX respPlainC1 gzNone pjC1
    entriesC1 "r" [123]
    (by decide) (by decide) rfl (by decide) rfl (by decide)

/-- A gzipped JSON model-listing response whose declared length is 123. -/
def respGz : UpstreamResponse :=
  ⟨200, [("content-type", "application/json"), ("content-encoding", "gzip"),
         ("content-length", "123")], [31, 139, 0], true⟩

/-- A parser that always raises. -/
def pjNone : List Nat → Option ModelsDoc := fun _ => none

/-- Claim C3, failing path: when gzip decompression raises, the middleware
returns the original response object with `content-length` and
`content-encoding` still present (its body iterator already consumed), NOT
the header-stripped fallback — while the parse-failure path does strip the
entity headers as the claim describes. -/
theorem C3_gzip_failure_keeps_headers :
    dispatch "/api/models" (some hX) respGz gzNone pjNone =
      DispatchResult.consumedOriginal respGz.headers 200 ∧
    headerGet respGz.headers "content-length" = some "123" ∧
    headerGet respGz.headers "content-encoding" = some "gzip" ∧
    dispatch "/api/models" (some hX) respDup gzNone pjNone =
      DispatchResult.fallback respDup.bufferedBytes
        (stripEntityHeaders respDup.headers) 200 ∧
    headerGet (stripEntityHeaders respDup.headers) "content-length" = none := by
  refine ⟨?_, ?_, ?_, ?_, ?_⟩ <;> decide

/-! ### models/mentors.py — mentor profiles and table operations

The relational store is modelled as the list of rows of the `profiles`
table; each SQLAlchemy query becomes a filter over that list. -/

/-- The columns of the `profiles` table that the core reads. -/
structure Profile where
  id : String
  huddle_id : String
  full_name : String
  class_year : Int
  metro_area : String
  current_company : Option String
  title : Option String
  prior_roles : Option String
  industry : Option String
  skills_experience : Option String
  linkedin_url : Option String
  photo_url : Option String
  mentorship_status : String
  deleted_at : Option Int
deriving DecidableEq, Repr

/-- Model of `MentorProfileModel` from `models/mentors.py`. -/
structure MentorProfileModel where
  id : String
  huddle_id : String
  full_name : String
  class_year : Int
  metro_area : String
  current_company : Option String
  title : Option String
  prior_roles : Option String
  industry : Option String
  skills_experience : Option String
  linkedin_url : Option String
  photo_url : Option String
deriving DecidableEq, Repr

/-- Model of `MentorProfileModel.from_orm_with_str_id`. -/
def from_orm_with_str_id (p : Profile) : MentorProfileModel :=
  ⟨p.id, p.huddle_id, p.full_name, p.class_year, p.metro_area,
   p.current_company, p.title, p.prior_roles, p.industry,
   p.skills_experience, p.linkedin_url, p.photo_url⟩

/-- Model of `MentorTable.MENTOR_STATUS`. -/
def MENTOR_STATUS : String := "Willing to mentor"

/-- Lexicographic character comparison (models SQL string ascending order). -/
def charListLe : List Char → List Char → Bool
  | [], _ => true
  | _ :: _, [] => false
  | a :: as, b :: bs =>
    if a.toNat < b.toNat then true
    else if b.toNat < a.toNat then false
    else charListLe as bs

/-- Insertion step of the `order_by(Profile.full_name.asc())` sort. -/
def insertByName (p : Profile) : List Profile → List Profile
  | [] => [p]
  | q :: qs =>
    if charListLe p.full_name.data q.full_name.data then p :: q :: qs
    else q :: insertByName p qs

/-- Model of `order_by(Profile.full_name.asc())`, as an insertion sort. -/
def sortByName : List Profile → List Profile
  | [] => []
  | p :: ps => insertByName p (sortByName ps)

theorem mem_insertByName (p x : Profile) (l : List Profile) :
    x ∈ insertByName p l ↔ x = p ∨ x ∈ l := by
  induction l with
  | nil => simp [insertByName]
  | cons q qs ih =>
    unfold insertByName
    split
    · simp
    · simp only [List.mem_cons, ih]
      tauto

theorem mem_sortByName (x : Profile) (l : List Profile) :
    x ∈ sortByName l ↔ x ∈ l := by
  induction l with
  | nil => simp [sortByName]
  | cons p ps ih => simp [sortByName, mem_insertByName, ih]

theorem length_insertByName (p : Profile) (l : List Profile) :
    (insertByName p l).length = l.length + 1 := by
  induction l with
  | nil => rfl
  | cons q qs ih =>
    unfold insertByName
    split
    · rfl
    · simp [ih]

theorem length_sortByName (l : List Profile) :
    (sortByName l).length = l.length := by
  induction l with
  | nil => rfl
  | cons p ps ih => simp [sortByName, length_insertByName, ih]

/-- Model of `MentorTable.get_mentors_by_huddle`: filter on huddle, availability
sentinel and unset delete marker, order by name, then apply `offset`/`limit`
with Python truthiness (`if skip:` / `if limit:` — a zero value applies
neither). -/
def get_mentors_by_huddle (db : List Profile) (huddle_id : String)
    (skip : Nat) (limit : Nat) : List MentorProfileModel :=
  let filtered := db.filter (fun p =>
    p.huddle_id == huddle_id && p.mentorship_status == MENTOR_STATUS &&
    p.deleted_at == none)
  let sorted := sortByName filtered
  let afterSkip := if skip ≠ 0 then sorted.drop skip else sorted
  let afterLimit := if limit ≠ 0 then afterSkip.take limit else afterSkip
  afterLimit.map from_orm_with_str_id

/-- Model of `MentorTable.get_mentor_by_id`: same row filters plus the id, `.first()`. -/
def get_mentor_by_id (db : List Profile) (mentor_id : String) :
    Option MentorProfileModel :=
  ((db.filter (fun p =>
    p.id == mentor_id && p.mentorship_status == MENTOR_STATUS &&
    p.deleted_at == none)).head?).map from_orm_with_str_id

/-- Model of `MentorTable.get_mentor_count_by_huddle`: `.count()` over the same filters. -/
def get_mentor_count_by_huddle (db : List Profile) (huddle_id : String) : Nat :=
  (db.filter (fun p =>
    p.huddle_id == huddle_id && p.mentorship_status == MENTOR_STATUS &&
    p.deleted_at == none)).length

/-- SQL `distinct` over a projected column. -/
def distinctStr : List String → List String
  | [] => []
  | x :: xs =>
    if x ∈ distinctStr xs then distinctStr xs else x :: distinctStr xs

theorem mem_distinctStr (l : List String) :
    ∀ x, x ∈ distinctStr l ↔ x ∈ l := by
  induction l with
  | nil => intro x; simp [distinctStr]
  | cons y ys ih =>
    intro x
    unfold distinctStr
    split
    next hy =>
      simp only [List.mem_cons, ih]
      refine ⟨Or.inr, ?_⟩
      rintro (rfl | hx)
      · exact (ih x).mp hy
      · exact hx
    next => simp [ih]

/-- Model of `MentorTable.get_all_huddle_ids_with_mentors`: distinct huddle ids of
visible mentor rows. -/
def get_all_huddle_ids_with_mentors (db : List Profile) : List String :=
  distinctStr ((db.filter (fun p =>
    p.mentorship_status == MENTOR_STATUS && p.deleted_at == none)).map
    (fun p => p.huddle_id))

/-- Elements surviving the `offset`/`limit` postprocessing come from the
underlying list. -/
theorem mem_of_skip_limit {α : Type} (s : List α) (skip limit : Nat) (x : α)
    (hx : x ∈ (if limit ≠ 0 then
        (if skip ≠ 0 then s.drop skip else s).take limit
      else (if skip ≠ 0 then s.drop skip else s))) : x ∈ s := by
  have h1 : ∀ y, y ∈ (if skip ≠ 0 then s.drop skip else s) → y ∈ s := by
    intro y hy
    split at hy
    · exact List.drop_subset _ _ hy
    · exact hy
  split at hx
  · exact h1 x (List.take_subset _ _ hx)
  · exact h1 x hx

/-- Claim C9: every mentor-reading operation — list by huddle, fetch by id,
count by huddle, enumerate huddle ids — exposes only rows whose
mentorship-availability field equals the sentinel `Willing to mentor` and
whose delete marker is unset. -/
theorem C9_visibility_invariant (db : List Profile)
    (huddle_id mentor_id : String) (skip limit : Nat) :
    (∀ m ∈ get_mentors_by_huddle db huddle_id skip limit,
      ∃ p, p ∈ db ∧ p.mentorship_status = MENTOR_STATUS ∧ p.deleted_at = none ∧
        p.huddle_id = huddle_id ∧ m = from_orm_with_str_id p) ∧
    (∀ m, get_mentor_by_id db mentor_id = some m →
      ∃ p, p ∈ db ∧ p.mentorship_status = MENTOR_STATUS ∧ p.deleted_at = none ∧
        p.id = mentor_id ∧ m = from_orm_with_str_id p) ∧
    get_mentor_count_by_huddle db huddle_id =
      (get_mentors_by_huddle db huddle_id 0 0).length ∧
    (∀ hid ∈ get_all_huddle_ids_with_mentors db,
      ∃ p, p ∈ db ∧ p.mentorship_status = MENTOR_STATUS ∧ p.deleted_at = none ∧
        p.huddle_id = hid) := by
  refine ⟨?_, ?_, ?_, ?_⟩
  · intro m hm
    simp only [get_mentors_by_huddle, List.mem_map] at hm
    obtain ⟨p, hp, rfl⟩ := hm
    have hps := mem_of_skip_limit _ skip limit p hp
    rw [mem_sortByName] at hps
    rw [List.mem_filter] at hps
    obtain ⟨hdb, hpred⟩ := hps
    simp only [Bool.and_eq_true, beq_iff_eq] at hpred
    exact ⟨p, hdb, hpred.1.2, hpred.2, hpred.1.1, rfl⟩
  · intro m hm
    simp only [get_mentor_by_id, Option.map_eq_some'] at hm
    obtain ⟨p, hp, rfl⟩ := hm
    have hmem : p ∈ db.filter (fun p =>
        p.id == mentor_id && p.mentorship_status == MENTOR_STATUS &&
        p.deleted_at == none) := by
      rcases hfl : db.filter (fun p =>
          p.id == mentor_id && p.mentorship_status == MENTOR_STATUS &&
          p.deleted_at == none) with _ | ⟨q, qs⟩
      · rw [hfl] at hp
        exact absurd hp (by simp)
      · rw [hfl] at hp
        simp only [List.head?, Option.some.injEq] at hp
        rw [hfl, ← hp]
        exact List.mem_cons_self q qs
    rw [List.mem_filter] at hmem
    obtain ⟨hdb, hpred⟩ := hmem
    simp only [Bool.and_eq_true, beq_iff_eq] at hpred
    exact ⟨p, hdb, hpred.1.2, hpred.2, hpred.1.1, rfl⟩
  · simp [get_mentor_count_by_huddle, get_mentors_by_huddle, length_sortByName]
  · intro hid hh
    simp only [get_all_huddle_ids_with_mentors] at hh
    rw [mem_distinctStr] at hh
    rw [List.mem_map] at hh
    obtain ⟨p, hp, rfl⟩ := hh
    rw [List.mem_filter] at hp
    obtain ⟨hdb, hpred⟩ := hp
    simp only [Bool.and_eq_true, beq_iff_eq] at hpred
    exact ⟨p, hdb, hpred.1, hpred.2, rfl⟩

/-- A visible mentor row used to evaluate the table operations. -/
def pA : Profile :=
  ⟨"m1", "h1", "Alice", 2020, "NYC", none, none, none, none, none, none,
   none, MENTOR_STATUS, none⟩

/-- A one-row `profiles` table. -/
def dbA : List Profile := [pA]

theorem C9_witness :
    (∃ p, p ∈ dbA ∧ p.mentorship_status = MENTOR_STATUS ∧ p.deleted_at = none ∧
      p.huddle_id = "h1" ∧ from_orm_with_str_id pA = from_orm_with_str_id p) ∧
    (∃ p, p ∈ dbA ∧ p.mentorship_status = MENTOR_STATUS ∧ p.deleted_at = none ∧
      p.id = "m1" ∧ from_orm_with_str_id pA = from_orm_with_str_id p) ∧
    get_mentor_count_by_huddle dbA "h1" =
      (get_mentors_by_huddle dbA "h1" 0 0).length ∧
    (∃ p, p ∈ dbA ∧ p.mentorship_status = MENTOR_STATUS ∧ p.deleted_at = none ∧
      p.huddle_id = "h1") :=
  ⟨(C9_visibility_invariant dbA "h1" "m1" 0 50).1 (from_orm_with_str_id pA)
      (by decide),
   (C9_visibility_invariant dbA "h1" "m1" 0 50).2.1 (from_orm_with_str_id pA)
      (by decide),
   (C9_visibility_invariant dbA "h1" "m1" 0 50).2.2.1,
   (C9_visibility_invariant dbA "h1" "m1" 0 50).2.2.2 "h1" (by decide)⟩

/-! ### services/mentor_rag.py — indexing -/

/-- The `{"indexed": N, "failed": N, "total": N}` result dict. -/
structure IndexCounts where
  indexed : Nat
  failed : Nat
  total : Nat
deriving DecidableEq, Repr

/-- One iteration of the loop in `index_all_mentors_for_huddle`: `index_mentor`
(embedding + upsert, both fallible) is abstracted to its injected success
outcome `indexOne`. -/
def indexStep (indexOne : MentorProfileModel → Bool) (r : IndexCounts)
    (m : MentorProfileModel) : IndexCounts :=
  if indexOne m then { r with indexed := r.indexed + 1 }
  else { r with failed := r.failed + 1 }

/-- Model of `MentorRAGService.index_all_mentors_for_huddle`: enumerate the huddle's
mentors (`limit=1000`), start from `{"indexed": 0, "failed": 0, "total":
len(mentors)}` and fold the per-mentor loop. -/
def index_all_mentors_for_huddle (indexOne : MentorProfileModel → Bool)
    (db : List Profile) (huddle_id : String) : IndexCounts :=
  (get_mentors_by_huddle db huddle_id 0 1000).foldl (indexStep indexOne)
    ⟨0, 0, (get_mentors_by_huddle db huddle_id 0 1000).length⟩

/-- The fold increments `indexed + failed` once per mentor and never touches
`total`. -/
theorem foldl_indexStep (indexOne : MentorProfileModel → Bool)
    (ms : List MentorProfileModel) : ∀ r : IndexCounts,
    (ms.foldl (indexStep indexOne) r).indexed +
      (ms.foldl (indexStep indexOne) r).failed =
      r.indexed + r.failed + ms.length ∧
    (ms.foldl (indexStep indexOne) r).total = r.total := by
  induction ms with
  | nil => intro r; simp
  | cons m t ih =>
    intro r
    rw [List.foldl_cons]
    have h := ih (indexStep indexOne r m)
    refine ⟨?_, ?_⟩
    · rw [h.1]
      unfold indexStep
      split
      · simp only [List.length_cons]
        omega
      · simp only [List.length_cons]
        omega
    · rw [h.2]
      unfold indexStep
      split <;> rfl

/-- A visible mentor row of huddle `h` for the 10-mentor example. -/
def mkMentorRow (mid nm : String) : Profile :=
  ⟨mid, "h", nm, 2020, "NYC", none, none, none, none, none, none, none,
   MENTOR_STATUS, none⟩

/-- Ten eligible mentors of one huddle. -/
def mentorDb10 : List Profile :=
  [mkMentorRow "m01" "Mentor A", mkMentorRow "m02" "Mentor B",
   mkMentorRow "m03" "Mentor C", mkMentorRow "m04" "Mentor D",
   mkMentorRow "m05" "Mentor E", mkMentorRow "m06" "Mentor F",
   mkMentorRow "m07" "Mentor G", mkMentorRow "m08" "Mentor H",
   mkMentorRow "m09" "Mentor I", mkMentorRow "m10" "Mentor J"]

/-- A per-mentor outcome where exactly the mentors `m03` and `m07` fail. -/
def failTwo : MentorProfileModel → Bool := fun m =>
  !(m.id == "m03" || m.id == "m07")

/-- Claim C7: `index_all_mentors_for_huddle` always returns counts with
`indexed + failed = total` where `total` is the number of mentors enumerated
for the huddle — a per-mentor failure never aborts the batch — and on 10
eligible mentors of which 2 fail it returns `{indexed: 8, failed: 2,
total: 10}`. -/
theorem C7_index_all_counts (indexOne : MentorProfileModel → Bool)
    (db : List Profile) (huddle_id : String) :
    (index_all_mentors_for_huddle indexOne db huddle_id).indexed +
      (index_all_mentors_for_huddle indexOne db huddle_id).failed =
      (index_all_mentors_for_huddle indexOne db huddle_id).total ∧
    (index_all_mentors_for_huddle indexOne db huddle_id).total =
      (get_mentors_by_huddle db huddle_id 0 1000).length ∧
    index_all_mentors_for_huddle failTwo mentorDb10 "h" = ⟨8, 2, 10⟩ := by
  have h := foldl_indexStep indexOne (get_mentors_by_huddle db huddle_id 0 1000)
    ⟨0, 0, (get_mentors_by_huddle db huddle_id 0 1000).length⟩
  refine ⟨?_, ?_, by decide⟩
  · unfold index_all_mentors_for_huddle
    rw [h.1, h.2]
    simp
  · unfold index_all_mentors_for_huddle
    rw [h.2]

/-! ### services/mentor_rag.py — search -/

/-- Model of `get_mentor_collection_name` from `services/mentor_rag.py`. -/
def get_mentor_collection_name (huddle_id : String) : String :=
  "mentors-" ++ huddle_id

/-- The vector store's search result: parallel arrays of ids, distances and
documents (one inner list per query vector). -/
structure VectorSearchResult where
  ids : List (List String)
  distances : List (List Int)
  documents : List (List String)
deriving DecidableEq, Repr

/-- The slice of `VECTOR_DB_CLIENT` that `search_mentors` uses:
`has_collection` and `search` (which may raise, or return `None`). -/
structure VectorDBClient where
  has_collection : String → Bool
  searchVectors : String → List Int → Nat → Except Unit (Option VectorSearchResult)

/-- One formatted search hit. -/
structure MentorSearchHit where
  mentor : MentorProfileModel
  relevance_score : Int
  document_text : String
deriving DecidableEq, Repr

/-- The `for i, mentor_id in enumerate(results.ids[0])` loop of
`search_mentors`: re-fetch each mentor by id, silently dropping ids that no
longer resolve; `results.distances[0][i] if results.distances else 0` (and
likewise documents) — an out-of-range index raises, caught by the outer
except. -/
def formatSearchHits (mentorDb : List Profile)
    (distances : List (List Int)) (documents : List (List String)) :
    Nat → List String → Except Unit (List MentorSearchHit)
  | _, [] => Except.ok []
  | i, mid :: rest =>
    match get_mentor_by_id mentorDb mid with
    | some mentor => do
      let score ← match distances with
        | [] => Except.ok 0
        | d0 :: _ =>
          match d0[i]? with
          | some v => Except.ok v
          | none => Except.error ()
      let doc ← match documents with
        | [] => Except.ok ""
        | doc0 :: _ =>
          match doc0[i]? with
          | some v => Except.ok v
          | none => Except.error ()
      let tail ← formatSearchHits mentorDb distances documents (i + 1) rest
      Except.ok (⟨mentor, score, doc⟩ :: tail)
    | none => formatSearchHits mentorDb distances documents (i + 1) rest

/-- Model of `MentorRAGService.search_mentors`: no embedding function or no collection
returns `[]`; any raised failure is caught and also returns `[]`. -/
def search_mentors (client : VectorDBClient)
    (embedding_function : Option (String → Except Unit (List Int)))
    (mentorDb : List Profile) (huddle_id : String) (query : String)
    (limit : Nat) : List MentorSearchHit :=
  match embedding_function with
  | none => []
  | some embed =>
    if ¬ client.has_collection (get_mentor_collection_name huddle_id) then []
    else
      match embed query with
      | Except.error _ => []
      | Except.ok query_embedding =>
        match client.searchVectors (get_mentor_collection_name huddle_id)
            query_embedding limit with
        | Except.error _ => []
        | Except.ok none => []
        | Except.ok (some results) =>
          if results.ids = [] then []
          else
            match formatSearchHits mentorDb results.distances
                results.documents 0 (results.ids.headD []) with
            | Except.error _ => []
            | Except.ok hits => hits

/-- Claim C8: when the huddle's vector collection does not exist, search
returns the empty list — no error — whatever the query, limit, embedding
function and mentor table are. -/
theorem C8_search_no_collection (client : VectorDBClient)
    (embedding_function : Option (String → Except Unit (List Int)))
    (mentorDb : List Profile) (huddle_id query : String) (limit : Nat)
    (hcol : client.has_collection (get_mentor_collection_name huddle_id) = false) :
    search_mentors client embedding_function mentorDb huddle_id query limit = [] := by
  unfold search_mentors
  match embedding_function with
  | none => rfl
  | some embed => simp [hcol]

/-- A vector store with no collections at all. -/
def emptyClient : VectorDBClient :=
  ⟨fun _ => false, fun _ _ _ => Except.error ()⟩

theorem C8_witness :
    search_mentors emptyClient none dbA "h1" "finance" 5 = [] :=
  C8_search_no_collection emptyClient none dbA "h1" "finance" 5 rfl

/-! ### routers/mentors.py — the single-mentor endpoint -/

/-- The two `HTTPException`s `get_mentor` can raise. -/
inductive MentorEndpointError where
  | notFound
  | forbidden
deriving DecidableEq, Repr

/-- Model of `get_mentor` from `routers/mentors.py`: fetch by id (404 when invisible
or absent), then the cross-tenant guard (403 when a tenant context is bound
and the mentor's huddle differs). -/
def get_mentor (huddle : Option HuddleModel) (mentorDb : List Profile)
    (mentor_id : String) : Except MentorEndpointError MentorProfileModel :=
  match get_mentor_by_id mentorDb mentor_id with
  | none => Except.error MentorEndpointError.notFound
  | some mentor =>
    match huddle with
    | some h =>
      if mentor.huddle_id ≠ h.id then Except.error MentorEndpointError.forbidden
      else Except.ok mentor
    | none => Except.ok mentor

/-- Claim C10: the endpoint raises the cross-tenant Forbidden error exactly
when a tenant context is bound and the fetched mentor's huddle id differs
from it; with no bound tenant every visible mentor is returned as-is. -/
theorem C10_cross_tenant_guard (huddle : Option HuddleModel)
    (mentorDb : List Profile) (mentor_id : String) :
    (get_mentor huddle mentorDb mentor_id =
        Except.error MentorEndpointError.forbidden ↔
      ∃ m h, get_mentor_by_id mentorDb mentor_id = some m ∧
        huddle = some h ∧ m.huddle_id ≠ h.id) ∧
    (huddle = none → ∀ m, get_mentor_by_id mentorDb mentor_id = some m →
      get_mentor huddle mentorDb mentor_id = Except.ok m) := by
  constructor
  · unfold get_mentor
    rcases hm : get_mentor_by_id mentorDb mentor_id with _ | m
    · simp
    · rcases huddle with _ | h
      · simp
      · by_cases hid : m.huddle_id = h.id
        · simp [hid]
        · simp [hid]
  · rintro rfl m hm
    unfold get_mentor
    rw [hm]

theorem C10_witness :
    get_mentor none dbA "m1" = Except.ok (from_orm_with_str_id pA) :=
  (C10_cross_tenant_guard none dbA "m1").2 rfl (from_orm_with_str_id pA)
    (by decide)
